import Mathlib

/-!
Verification of the single-run CSV migration pipeline
(`migration/scripts/run_migration.py`) against its specification.

The pipeline is embedded shallowly:

* a CSV row (a Python `dict` read by `csv.DictReader`) is an association
  list `List (String × String)` whose order is insertion order;
* Python's `int(str)` conversion is `pyStrToInt` (ASCII digits, optional
  sign, single underscores between digits, surrounding whitespace);
* the YAML configuration document is `ConfigDoc`, a nested record of
  `Option` fields (a `none` section or leaf is an absent key, which the
  script reaches with `data[...]` for required keys and `.get` for
  optional ones);
* fatal errors (`die`, uncaught exceptions) are `none` / `Except.error`;
* `main` returns the process exit code together with the ordered trace of
  observable file effects (`Event` list): log lines, the staging write,
  the output write and the report write.  The per-run `uuid` and UTC
  timestamp are parameters of `main`.
-/

set_option autoImplicit false

namespace Migration

/-- Python whitespace characters stripped by `str.strip()` and by `int()`
(space, tab, newline, carriage return, vertical tab, form feed). -/
def pyIsSpace (c : Char) : Bool :=
  c == ' ' || c == '\t' || c == '\n' || c == '\r' ||
    c == Char.ofNat 11 || c == Char.ofNat 12

/-- Model of Python `str.strip()`: remove leading and trailing whitespace. -/
def pyStrip (s : String) : String :=
  String.mk (((s.data.dropWhile pyIsSpace).reverse.dropWhile pyIsSpace).reverse)

/-- Digit-sequence tail of Python `int(str)`: after the first digit, digits
may be separated by single underscores; anything else is a parse error. -/
def pyDigitsAux : Nat → List Char → Option Nat
  | acc, [] => some acc
  | acc, '_' :: rest =>
    match rest with
    | [] => none
    | c :: cs =>
      if c.isDigit then pyDigitsAux (acc * 10 + (c.toNat - 48)) cs else none
  | acc, c :: cs =>
    if c.isDigit then pyDigitsAux (acc * 10 + (c.toNat - 48)) cs else none

/-- Model of Python `int(s)` for a string `s` (ASCII): strip whitespace,
accept an optional sign followed by a nonempty digit sequence with optional
single underscores between digits; `none` models a raised `ValueError`
(empty, whitespace-only or non-numeric input). -/
def pyStrToInt (s : String) : Option Int :=
  let t := (pyStrip s).data
  let signed : Int × List Char :=
    match t with
    | '+' :: r => (1, r)
    | '-' :: r => (-1, r)
    | r => (1, r)
  match signed.2 with
  | [] => none
  | c :: cs =>
    if c.isDigit then
      (pyDigitsAux (c.toNat - 48) cs).map (fun n => signed.1 * (n : Int))
    else none

/-- A CSV row as produced by `csv.DictReader`: a mapping from column name
to string value in insertion (= source column) order. -/
abbrev Row := List (String × String)

/-- Model of Python `r.get(k, d)` on a row dictionary. -/
def rowGetD : Row → String → String → String
  | [], _, d => d
  | p :: rest, k, d => if p.1 == k then p.2 else rowGetD rest k d

/-- Model of Python dictionary assignment `r[k] = v`: if the key is already
present its value is replaced in place (insertion order kept), otherwise
the pair is appended at the end. -/
def setKey : Row → String → String → Row
  | [], k, v => [(k, v)]
  | p :: rest, k, v => if p.1 == k then (k, v) :: rest else p :: setKey rest k v

/-- The keys of a row, in insertion order (Python `list(r.keys())`). -/
def rowKeys (r : Row) : List String := r.map Prod.fst

/-- The validated in-memory configuration record (`Config` dataclass). -/
structure Config where
  run_name : String
  mode : String
  fail_fast : Bool
  raw_dir : String
  staging_dir : String
  output_dir : String
  reports_dir : String
  logs_dir : String
  source_file : String
  expected_columns : List String
  min_age : Int
  add_migrated_at_utc : Bool
  add_run_id : Bool
  output_file : String
  report_file : String
  log_file : String
deriving DecidableEq, Repr

/-- A scalar YAML value as relevant to `min_age`: either already an
integer, or a string that `int()` must parse. -/
inductive YamlScalar where
  | int : Int → YamlScalar
  | str : String → YamlScalar
deriving DecidableEq, Repr

/-- Python `int(v)` on a YAML scalar: an integer is returned as is, a
string goes through string parsing; `none` is a raised `ValueError`. -/
def pyIntOfScalar : YamlScalar → Option Int
  | .int n => some n
  | .str s => pyStrToInt s

/-- The `run` section of the configuration document. -/
structure RunSec where
  name : Option String
  mode : Option String
  fail_fast : Option Bool
deriving DecidableEq, Repr

/-- The `paths` section of the configuration document. -/
structure PathsSec where
  raw_dir : Option String
  staging_dir : Option String
  output_dir : Option String
  reports_dir : Option String
  logs_dir : Option String
deriving DecidableEq, Repr

/-- The `inputs` section of the configuration document. -/
structure InputsSec where
  source_file : Option String
  expected_columns : Option (List String)
deriving DecidableEq, Repr

/-- The `transform.filter` subsection of the configuration document. -/
structure FilterSec where
  min_age : Option YamlScalar
deriving DecidableEq, Repr

/-- The `transform.add_columns` subsection of the configuration document. -/
structure AddColsSec where
  migrated_at_utc : Option Bool
  run_id : Option Bool
deriving DecidableEq, Repr

/-- The `transform` section of the configuration document. -/
structure TransformSec where
  filter : Option FilterSec
  add_columns : Option AddColsSec
deriving DecidableEq, Repr

/-- The `outputs` section of the configuration document. -/
structure OutputsSec where
  output_file : Option String
  report_file : Option String
  log_file : Option String
deriving DecidableEq, Repr

/-- The parsed YAML configuration document handed to `load_config`.  A
`none` marks an absent key; the script reads required keys with
`data[...]` (a `KeyError`, hence a fatal exit, when absent) and optional
keys with `.get(..., default)`. -/
structure ConfigDoc where
  run : Option RunSec
  paths : Option PathsSec
  inputs : Option InputsSec
  transform : Option TransformSec
  outputs : Option OutputsSec
deriving DecidableEq, Repr

/-- Model of `load_config`: resolve the configuration document into a
`Config`, or fail (`none`) when a required key is absent or `int(min_age)`
raises.  Mirrors the script line by line: `run.name`, the five paths,
`inputs.source_file`, `inputs.expected_columns`, the `transform.filter`
section and the three `outputs` entries are required; `run.mode` defaults
to `"full"`, `run.fail_fast` to `true`, `filter.min_age` to `0`, and the
optional `transform.add_columns` flags each default to `true`. -/
def load_config (d : ConfigDoc) : Option Config :=
  match d.run, d.paths, d.inputs, d.transform, d.outputs with
  | some runSec, some paths, some inputs, some transform, some outputs =>
    match runSec.name, paths.raw_dir, paths.staging_dir, paths.output_dir,
        paths.reports_dir, paths.logs_dir, inputs.source_file,
        inputs.expected_columns, transform.filter, outputs.output_file,
        outputs.report_file, outputs.log_file with
    | some run_name, some raw_dir, some staging_dir, some output_dir,
      some reports_dir, some logs_dir, some source_file,
      some expected_columns, some filter, some output_file,
      some report_file, some log_file =>
      match pyIntOfScalar (filter.min_age.getD (YamlScalar.int 0)) with
      | none => none
      | some min_age =>
        let add_cols := transform.add_columns.getD ⟨none, none⟩
        some {
          run_name := run_name
          mode := runSec.mode.getD "full"
          fail_fast := runSec.fail_fast.getD true
          raw_dir := raw_dir
          staging_dir := staging_dir
          output_dir := output_dir
          reports_dir := reports_dir
          logs_dir := logs_dir
          source_file := source_file
          expected_columns := expected_columns
          min_age := min_age
          add_migrated_at_utc := add_cols.migrated_at_utc.getD true
          add_run_id := add_cols.run_id.getD true
          output_file := output_file
          report_file := report_file
          log_file := log_file
        }
    | _, _, _, _, _, _, _, _, _, _, _, _ => none
  | _, _, _, _, _ => none

/-- The data carried by the fatal schema-validation error message:
the missing columns, the input path and the full observed header list. -/
structure SchemaError where
  missing : List String
  path : String
  headers : List String
deriving DecidableEq, Repr

/-- The headers `validate_columns` observes: the keys of the first row,
or — when there are no data rows — the file's header line, re-read from
the input file. -/
def observed_headers (rows : List Row) (fileHeaders : List String) : List String :=
  match rows with
  | [] => fileHeaders
  | r :: _ => rowKeys r

/-- Model of `validate_columns`: derive the observed headers (from the
first row, or from the file's header line when there are no data rows),
compute the expected columns that are missing, and fail iff some are
missing while `fail_fast` holds; otherwise return the observed headers. -/
def validate_columns (rows : List Row) (expected : List String)
    (input_path : String) (fileHeaders : List String) (fail_fast : Bool) :
    Except SchemaError (List String) :=
  let headers := observed_headers rows fileHeaders
  let missing := expected.filter (fun c => !(headers.contains c))
  let _extra := headers.filter (fun c => !(expected.contains c))
  if missing ≠ [] ∧ fail_fast then .error ⟨missing, input_path, headers⟩
  else .ok headers

/-- The age used for filtering a row: `int(r.get("age", "").strip())`,
with a raised `ValueError` absorbed into the sentinel `-1`. -/
def parseAge (r : Row) : Int :=
  match pyStrToInt (pyStrip (rowGetD r "age" "")) with
  | some n => n
  | none => -1

/-- The enrichment step applied to one retained row: copy the row
(`dict(r)`), then assign `migrated_at_utc` and `run_id` according to the
flags (Python dictionary assignment, see `setKey`). -/
def transformRow (cfg : Config) (run_id migrated_at : String) (r : Row) : Row :=
  let r1 := r
  let r2 := if cfg.add_migrated_at_utc then setKey r1 "migrated_at_utc" migrated_at else r1
  if cfg.add_run_id then setKey r2 "run_id" run_id else r2

/-- Model of `transform_rows`: walk the rows in order, skip a row whose
(parsed-or-sentinel) age is below `min_age`, and enrich the rest. -/
def transform_rows (rows : List Row) (cfg : Config) (run_id migrated_at : String) :
    List Row :=
  match rows with
  | [] => []
  | r :: rest =>
    if parseAge r < cfg.min_age then transform_rows rest cfg run_id migrated_at
    else transformRow cfg run_id migrated_at r :: transform_rows rest cfg run_id migrated_at

/-- Model of `write_csv`'s produced file content: `none` is an empty file
with no header row (written when the row sequence is empty); otherwise
the header list (keys of the first row) together with each row's values
listed under those headers (`csv.DictWriter`, absent keys as `""`). -/
def write_csv (rows : List Row) : Option (List String × List (List String)) :=
  match rows with
  | [] => none
  | r :: _ =>
    let headers := rowKeys r
    some (headers, rows.map (fun row => headers.map (fun h => rowGetD row h "")))

/-- The JSON run report (`report` dictionary in `main`). -/
structure Report where
  run_name : String
  mode : String
  run_id : String
  migrated_at_utc : String
  input_file : String
  staging_file : String
  output_file : String
  input_rows : Nat
  output_rows : Nat
  headers_seen : List String
deriving DecidableEq, Repr

/-- The resolved input path `raw_dir / source_file`. -/
def input_path (cfg : Config) : String := cfg.raw_dir ++ "/" ++ cfg.source_file

/-- The resolved staging path `staging_dir / ("staged_" + source_file)`. -/
def staging_path (cfg : Config) : String :=
  cfg.staging_dir ++ "/staged_" ++ cfg.source_file

/-- The resolved output path `output_dir / output_file`. -/
def output_path (cfg : Config) : String := cfg.output_dir ++ "/" ++ cfg.output_file

/-- The observable file effects of a run, in the order they happen. -/
inductive Event where
  | logStart : Event
  | logFailMissingInput : Event
  | writeStaging : Option (List String × List (List String)) → Event
  | writeOutput : Option (List String × List (List String)) → Event
  | writeReport : Report → Event
  | logSuccess : Event
deriving DecidableEq, Repr

/-- The input file at the resolved input path: `headers = none` models a
file whose header line is absent (`DictReader.fieldnames is None`);
otherwise `headers` is the header line and `rows` the data rows, each row
keyed by the headers. -/
structure InputFile where
  headers : Option (List String)
  rows : List Row
deriving DecidableEq, Repr

/-- The environment a run sees: the argument count of the invocation, the
configuration document (if the config file exists) and the input file (if
it exists at the resolved path). -/
structure World where
  argc : Nat
  configFile : Option ConfigDoc
  inputFile : Option InputFile
deriving DecidableEq, Repr

/-- The report built on the success path of `main`. -/
def mkReport (cfg : Config) (run_id migrated_at : String)
    (inputRows : Nat) (outputRows : Nat) (headers : List String) : Report :=
  {
    run_name := cfg.run_name
    mode := cfg.mode
    run_id := run_id
    migrated_at_utc := migrated_at
    input_file := input_path cfg
    staging_file := staging_path cfg
    output_file := output_path cfg
    input_rows := inputRows
    output_rows := outputRows
    headers_seen := headers
  }

/-- Model of `main`: the process exit code together with the trace of
observable file effects.  `run_id` (the fresh uuid) and `migrated_at`
(the run's UTC timestamp) are threaded as parameters.  Exit `2` on a
wrong argument count (before any effect), exit `1` on a missing config
file, a failing `load_config`, a missing input file (after the START log
line, with a FAIL log line), a header-less input, or a fail-fast schema
violation; exit `0` on success, with the staging write, the output write,
the report write and the SUCCESS log line in that order. -/
def main (w : World) (run_id migrated_at : String) : Nat × List Event :=
  if w.argc ≠ 2 then (2, [])
  else
    match w.configFile with
    | none => (1, [])
    | some doc =>
      match load_config doc with
      | none => (1, [])
      | some cfg =>
        match w.inputFile with
        | none => (1, [.logStart, .logFailMissingInput])
        | some file =>
          match file.headers with
          | none => (1, [.logStart])
          | some fileHeaders =>
            match validate_columns file.rows cfg.expected_columns
                (input_path cfg) fileHeaders cfg.fail_fast with
            | .error _ => (1, [.logStart])
            | .ok headers =>
              let transformed := transform_rows file.rows cfg run_id migrated_at
              let rep := mkReport cfg run_id migrated_at
                file.rows.length transformed.length headers
              (0, [.logStart,
                   .writeStaging (write_csv transformed),
                   .writeOutput (write_csv transformed),
                   .writeReport rep,
                   .logSuccess])

/-- A concrete configuration with threshold `n`: expected columns
`["id", "age"]`, fail-fast on, both enrichment flags on. -/
def cfgMin (n : Int) : Config where
  run_name := "r"
  mode := "full"
  fail_fast := true
  raw_dir := "raw"
  staging_dir := "stg"
  output_dir := "out"
  reports_dir := "rep"
  logs_dir := "log"
  source_file := "s.csv"
  expected_columns := ["id", "age"]
  min_age := n
  add_migrated_at_utc := true
  add_run_id := true
  output_file := "o.csv"
  report_file := "r.json"
  log_file := "l.log"

/-- A concrete configuration document that resolves to `cfgMin n`. -/
def docMin (n : Int) : ConfigDoc where
  run := some ⟨some "r", some "full", some true⟩
  paths := some ⟨some "raw", some "stg", some "out", some "rep", some "log"⟩
  inputs := some ⟨some "s.csv", some ["id", "age"]⟩
  transform := some ⟨some ⟨some (YamlScalar.int n)⟩, some ⟨some true, some true⟩⟩
  outputs := some ⟨some "o.csv", some "r.json", some "l.log"⟩

/-! Auxiliary lemmas about the embedded operations. -/

/-- The transform is the age filter followed by per-row enrichment. -/
lemma transform_rows_eq_filter_map (rows : List Row) (cfg : Config)
    (run_id migrated_at : String) :
    transform_rows rows cfg run_id migrated_at =
      (rows.filter (fun r => decide (cfg.min_age ≤ parseAge r))).map
        (transformRow cfg run_id migrated_at) := by
  induction rows with
  | nil => rfl
  | cons r rest ih =>
    by_cases h : parseAge r < cfg.min_age
    · simp [transform_rows, h, List.filter_cons, not_le.mpr h, ih]
    · simp [transform_rows, h, List.filter_cons, not_lt.mp h, ih]

/-- Assigning an absent key appends the pair at the end of the row. -/
lemma setKey_append_of_not_mem (r : Row) (k v : String)
    (h : k ∉ rowKeys r) :
    setKey r k v = r ++ [(k, v)] := by
  induction r with
  | nil => rfl
  | cons p rest ih =>
    simp only [rowKeys, List.map_cons, List.mem_cons, not_or] at h
    have hne : (p.1 == k) = false := by
      simp only [beq_eq_false_iff_ne]
      exact fun he => h.1 he.symm
    simp [setKey, hne, ih (by simpa [rowKeys] using h.2)]

/-- Assigning a key never shortens a row. -/
lemma length_setKey_ge (r : Row) (k v : String) :
    r.length ≤ (setKey r k v).length := by
  induction r with
  | nil => simp [setKey]
  | cons p rest ih =>
    by_cases h : p.1 == k
    · simp [setKey, h]
    · simp [setKey, h]
      omega

/-- Assigning one key leaves lookups of every other key unchanged. -/
lemma rowGetD_setKey_of_ne (r : Row) (k1 k v d : String) (h : k1 ≠ k) :
    rowGetD (setKey r k1 v) k d = rowGetD r k d := by
  induction r with
  | nil => simp [setKey, rowGetD, h]
  | cons p rest ih =>
    by_cases hp : p.1 == k1
    · have : ¬ (k1 == k) := by simpa using h
      simp [setKey, rowGetD, hp, this, eq_of_beq hp]
    · simp [setKey, rowGetD, hp]
      by_cases hk : p.1 == k <;> simp [hk, ih]

/-- On a row that does not already contain the enrichment columns, the
enrichment step appends `migrated_at_utc` and then `run_id`, each
controlled by its flag. -/
lemma transformRow_eq_append (cfg : Config) (run_id migrated_at : String)
    (r : Row) (h1 : "migrated_at_utc" ∉ rowKeys r) (h2 : "run_id" ∉ rowKeys r) :
    transformRow cfg run_id migrated_at r =
      r ++ (if cfg.add_migrated_at_utc then [("migrated_at_utc", migrated_at)] else [])
        ++ (if cfg.add_run_id then [("run_id", run_id)] else []) := by
  have h2a : "run_id" ∉ rowKeys (r ++ [("migrated_at_utc", migrated_at)]) := by
    simp only [rowKeys, List.map_append, List.map_cons, List.map_nil, List.mem_append,
      List.mem_singleton]
    rintro (hx | hx)
    · exact h2 hx
    · exact absurd hx (by decide)
  cases hm : cfg.add_migrated_at_utc <;> cases hr : cfg.add_run_id
  · simp [transformRow, hm, hr]
  · simp [transformRow, hm, hr, setKey_append_of_not_mem r _ _ h2]
  · simp [transformRow, hm, hr, setKey_append_of_not_mem r _ _ h1]
  · simp [transformRow, hm, hr, setKey_append_of_not_mem r _ _ h1,
      setKey_append_of_not_mem _ _ _ h2a]

/-- Enrichment leaves lookups of non-enrichment keys unchanged. -/
lemma rowGetD_transformRow_of_ne (cfg : Config) (run_id migrated_at : String)
    (r : Row) (k d : String) (h1 : k ≠ "migrated_at_utc") (h2 : k ≠ "run_id") :
    rowGetD (transformRow cfg run_id migrated_at r) k d = rowGetD r k d := by
  have e1 : ∀ s : Row, rowGetD (setKey s "migrated_at_utc" migrated_at) k d = rowGetD s k d :=
    fun s => rowGetD_setKey_of_ne s _ _ _ _ (fun he => h1 he.symm)
  have e2 : ∀ s : Row, rowGetD (setKey s "run_id" run_id) k d = rowGetD s k d :=
    fun s => rowGetD_setKey_of_ne s _ _ _ _ (fun he => h2 he.symm)
  cases hm : cfg.add_migrated_at_utc <;> cases hr : cfg.add_run_id <;>
    simp [transformRow, hm, hr, e1, e2]

/-- Enrichment never shortens a row. -/
lemma length_transformRow_ge (cfg : Config) (run_id migrated_at : String)
    (r : Row) : r.length ≤ (transformRow cfg run_id migrated_at r).length := by
  unfold transformRow
  by_cases hm : cfg.add_migrated_at_utc <;> by_cases hr : cfg.add_run_id <;>
    simp only [hm, hr, ite_true, ite_false]
  · exact le_trans (length_setKey_ge ..) (length_setKey_ge ..)
  · exact length_setKey_ge ..
  · exact length_setKey_ge ..
  · exact le_refl _

/-- When every expected column is present among the observed headers,
validation returns the observed headers, whatever the policy. -/
lemma validate_columns_ok_of_superset (rows : List Row) (expected : List String)
    (input_path : String) (fileHeaders : List String) (fail_fast : Bool)
    (hsup : ∀ c ∈ expected, c ∈ observed_headers rows fileHeaders) :
    validate_columns rows expected input_path fileHeaders fail_fast =
      .ok (observed_headers rows fileHeaders) := by
  have hnil : expected.filter
      (fun c => !((observed_headers rows fileHeaders).contains c)) = [] := by
    refine List.filter_eq_nil_iff.mpr fun c hc => ?_
    simp [hsup c hc]
  simp only [validate_columns]
  rw [hnil]
  simp

/-- Validation with `fail_fast` off never fails. -/
lemma validate_columns_ok_of_not_fail_fast (rows : List Row)
    (expected : List String) (input_path : String) (fileHeaders : List String) :
    validate_columns rows expected input_path fileHeaders false =
      .ok (observed_headers rows fileHeaders) := by
  unfold validate_columns
  simp

/-- A validation failure names exactly the expected columns that are
missing from the observed headers, the input path and the observed
headers, and happens only under `fail_fast` with some column missing. -/
lemma validate_columns_error_iff (rows : List Row) (expected : List String)
    (input_path : String) (fileHeaders : List String) (fail_fast : Bool)
    (e : SchemaError) :
    validate_columns rows expected input_path fileHeaders fail_fast = .error e ↔
      (expected.filter (fun c => !((observed_headers rows fileHeaders).contains c)) ≠ []
        ∧ fail_fast = true
        ∧ e = ⟨expected.filter (fun c => !((observed_headers rows fileHeaders).contains c)),
                input_path, observed_headers rows fileHeaders⟩) := by
  simp only [validate_columns]
  by_cases hm : expected.filter
      (fun c => !((observed_headers rows fileHeaders).contains c)) = []
  · rw [hm]
    cases fail_fast <;> simp [hm]
  · cases fail_fast
    · rw [if_neg (by simp)]
      simp
    · rw [if_pos ⟨hm, rfl⟩]
      constructor
      · intro h
        exact ⟨hm, rfl, (Except.error.inj h).symm⟩
      · rintro ⟨-, -, he⟩
        rw [he]

/-- The success path of `main`: a well-formed invocation, a loadable
configuration, an input file whose rows are keyed by its header line and
whose observed headers cover every expected column, yields exit code `0`
and the full effect trace. -/
lemma main_success (d : ConfigDoc) (cfg : Config) (fileHeaders : List String)
    (rows : List Row) (run_id migrated_at : String)
    (hcfg : load_config d = some cfg)
    (hw : ∀ r ∈ rows, rowKeys r = fileHeaders)
    (hsup : ∀ c ∈ cfg.expected_columns, c ∈ fileHeaders) :
    main ⟨2, some d, some ⟨some fileHeaders, rows⟩⟩ run_id migrated_at =
      (0, [.logStart,
           .writeStaging (write_csv (transform_rows rows cfg run_id migrated_at)),
           .writeOutput (write_csv (transform_rows rows cfg run_id migrated_at)),
           .writeReport (mkReport cfg run_id migrated_at rows.length
             (transform_rows rows cfg run_id migrated_at).length fileHeaders),
           .logSuccess]) := by
  have hobs : observed_headers rows fileHeaders = fileHeaders := by
    cases rows with
    | nil => rfl
    | cons r rest => simpa [observed_headers] using hw r (by simp)
  have hv : validate_columns rows cfg.expected_columns (input_path cfg) fileHeaders
      cfg.fail_fast = .ok fileHeaders := by
    rw [validate_columns_ok_of_superset _ _ _ _ _ (by rw [hobs]; exact hsup), hobs]
  simp only [main]
  rw [hcfg]
  simp [hv]

/-- The fail-fast schema-violation path of `main`: a loadable fail-fast
configuration and an input file missing some expected column stop the run
with exit code `1` right after the START log line. -/
lemma main_schema_fail (d : ConfigDoc) (cfg : Config) (fileHeaders : List String)
    (rows : List Row) (run_id migrated_at : String)
    (hcfg : load_config d = some cfg)
    (hff : cfg.fail_fast = true)
    (hw : ∀ r ∈ rows, rowKeys r = fileHeaders)
    (hmiss : ∃ c ∈ cfg.expected_columns, c ∉ fileHeaders) :
    main ⟨2, some d, some ⟨some fileHeaders, rows⟩⟩ run_id migrated_at =
      (1, [.logStart]) := by
  have hobs : observed_headers rows fileHeaders = fileHeaders := by
    cases rows with
    | nil => rfl
    | cons r rest => simpa [observed_headers] using hw r (by simp)
  obtain ⟨c, hc, hcn⟩ := hmiss
  have hfil : cfg.expected_columns.filter
      (fun x => !((observed_headers rows fileHeaders).contains x)) ≠ [] := by
    refine List.ne_nil_of_mem (a := c) (List.mem_filter.mpr ⟨hc, ?_⟩)
    rw [hobs]
    simp [hcn]
  have hv : validate_columns rows cfg.expected_columns (input_path cfg) fileHeaders
      cfg.fail_fast =
      .error ⟨cfg.expected_columns.filter
          (fun x => !((observed_headers rows fileHeaders).contains x)),
        input_path cfg, observed_headers rows fileHeaders⟩ :=
    (validate_columns_error_iff ..).mpr ⟨hfil, hff, rfl⟩
  simp only [main]
  rw [hcfg]
  simp [hv]

/-- Case analysis of `main`: exit code `2` exactly on a wrong argument
count, exit code `0` exactly when a SUCCESS line is logged, and a
successful run's trace is the START line, two tabular writes of the same
content, the report write and the SUCCESS line. -/
lemma main_cases (w : World) (run_id migrated_at : String) :
    ((main w run_id migrated_at).1 = 2 ↔ w.argc ≠ 2) ∧
    ((main w run_id migrated_at).1 = 0 ↔
      Event.logSuccess ∈ (main w run_id migrated_at).2) ∧
    ((main w run_id migrated_at).1 = 0 →
      ∃ (c : Option (List String × List (List String))) (rep : Report),
        (main w run_id migrated_at).2 =
          [.logStart, .writeStaging c, .writeOutput c, .writeReport rep,
           .logSuccess]) := by
  rcases w with ⟨argc, cf, inf⟩
  by_cases h2 : argc = 2
  · subst h2
    cases cf with
    | none => simp [main]
    | some doc =>
      rcases hlc : load_config doc with _ | cfg
      · simp [main, hlc]
      · cases inf with
        | none => simp [main, hlc]
        | some file =>
          rcases file with ⟨fh, rows⟩
          cases fh with
          | none => simp [main, hlc]
          | some fhs =>
            rcases hv : validate_columns rows cfg.expected_columns (input_path cfg)
                fhs cfg.fail_fast with e | hdrs
            · simp [main, hlc, hv]
            · refine ⟨by simp [main, hlc, hv], by simp [main, hlc, hv],
                fun _ => ⟨write_csv (transform_rows rows cfg run_id migrated_at),
                  mkReport cfg run_id migrated_at rows.length
                    (transform_rows rows cfg run_id migrated_at).length hdrs,
                  by simp [main, hlc, hv]⟩⟩
  · simp [main, h2]

/-! The claims. -/

/-- C4: the transformer never raises on per-row data issues: an age field
whose string fails integer parsing is absorbed by substituting the
sentinel `-1`, and `transform_rows` proceeds normally over such a row
(it is filtered by comparing `-1` against `min_age`, never an error). -/
theorem claim_C4_sentinel_absorbed (cfg : Config) (run_id migrated_at : String)
    (r : Row) (rest : List Row)
    (h : pyStrToInt (pyStrip (rowGetD r "age" "")) = none) :
    parseAge r = -1 ∧
      transform_rows (r :: rest) cfg run_id migrated_at =
        (if (-1 : Int) < cfg.min_age then transform_rows rest cfg run_id migrated_at
         else transformRow cfg run_id migrated_at r ::
           transform_rows rest cfg run_id migrated_at) := by
  have hp : parseAge r = -1 := by simp [parseAge, h]
  refine ⟨hp, ?_⟩
  simp only [transform_rows]
  rw [hp]

/-- C4 witness: a concrete unparsable age `"abc"`. -/
theorem claim_C4_witness :
    parseAge [("age", "abc")] = -1 ∧
      transform_rows [[("age", "abc")]] (cfgMin 0) "R" "M" =
        (if (-1 : Int) < (cfgMin 0).min_age then transform_rows [] (cfgMin 0) "R" "M"
         else transformRow (cfgMin 0) "R" "M" [("age", "abc")] ::
           transform_rows [] (cfgMin 0) "R" "M") :=
  claim_C4_sentinel_absorbed (cfgMin 0) "R" "M" [("age", "abc")] [] (by decide)

/-- C5 counterexample: on a source row that already contains a `run_id`
column, the enrichment does not append the fields after the original
columns; Python dictionary assignment overwrites the existing `run_id`
value in place, so the claimed field order (original columns, then
`migrated_at_utc`, then `run_id`) is violated. -/
theorem claim_C5_counterexample :
    transformRow (cfgMin 0) "R" "M" [("age", "5"), ("run_id", "old")] ≠
      [("age", "5"), ("run_id", "old"), ("migrated_at_utc", "M"), ("run_id", "R")] ∧
    transformRow (cfgMin 0) "R" "M" [("age", "5"), ("run_id", "old")] =
      [("age", "5"), ("run_id", "R"), ("migrated_at_utc", "M")] := by
  decide

/-- C5 (amended): for every retained row that does not already contain a
column named `migrated_at_utc` or `run_id`, the enabled enrichment fields
carrying the single shared run timestamp and run identifier are appended,
independently toggleable, in the order original columns, then
`migrated_at_utc`, then `run_id`. -/
theorem claim_C5_enrichment_appended (cfg : Config) (run_id migrated_at : String)
    (rows : List Row)
    (h : ∀ r ∈ rows, "migrated_at_utc" ∉ rowKeys r ∧ "run_id" ∉ rowKeys r) :
    ∀ o ∈ transform_rows rows cfg run_id migrated_at, ∃ r ∈ rows,
      cfg.min_age ≤ parseAge r ∧
      o = r ++ (if cfg.add_migrated_at_utc then [("migrated_at_utc", migrated_at)] else [])
        ++ (if cfg.add_run_id then [("run_id", run_id)] else []) := by
  intro o ho
  rw [transform_rows_eq_filter_map] at ho
  obtain ⟨r, hr, rfl⟩ := List.mem_map.mp ho
  have hf := List.mem_filter.mp hr
  exact ⟨r, hf.1, by simpa using hf.2,
    transformRow_eq_append cfg run_id migrated_at r (h r hf.1).1 (h r hf.1).2⟩

/-- C5 witness: a concrete retained collision-free row. -/
theorem claim_C5_witness :
    ∃ r ∈ [[("id", "1"), ("age", "30")]], (cfgMin 0).min_age ≤ parseAge r ∧
      [("id", "1"), ("age", "30"), ("migrated_at_utc", "M"), ("run_id", "R")] =
        r ++ (if (cfgMin 0).add_migrated_at_utc then [("migrated_at_utc", "M")] else [])
          ++ (if (cfgMin 0).add_run_id then [("run_id", "R")] else []) :=
  claim_C5_enrichment_appended (cfgMin 0) "R" "M" [[("id", "1"), ("age", "30")]]
    (by decide)
    [("id", "1"), ("age", "30"), ("migrated_at_utc", "M"), ("run_id", "R")]
    (by decide)

/-- C6: schema validation never fails because of extra columns — a failure
implies fail-fast and some expected column missing from the observed
headers; with fail-fast off it always returns the observed headers; and
every non-enrichment column of a row passes through the transform with
its value unchanged. -/
theorem claim_C6_extra_columns_tolerated :
    (∀ (rows : List Row) (expected : List String) (path : String)
        (fileHeaders : List String) (fail_fast : Bool) (e : SchemaError),
      validate_columns rows expected path fileHeaders fail_fast = .error e →
      fail_fast = true ∧ ∃ c ∈ expected, c ∉ observed_headers rows fileHeaders) ∧
    (∀ (rows : List Row) (expected : List String) (path : String)
        (fileHeaders : List String),
      validate_columns rows expected path fileHeaders false =
        .ok (observed_headers rows fileHeaders)) ∧
    (∀ (cfg : Config) (run_id migrated_at : String) (r : Row) (k d : String),
      k ≠ "migrated_at_utc" → k ≠ "run_id" →
      rowGetD (transformRow cfg run_id migrated_at r) k d = rowGetD r k d) ∧
    (∀ (d : ConfigDoc) (cfg : Config) (fileHeaders : List String)
        (rows : List Row) (run_id migrated_at : String),
      load_config d = some cfg → cfg.fail_fast = false →
      (main ⟨2, some d, some ⟨some fileHeaders, rows⟩⟩ run_id migrated_at).1 = 0) := by
  refine ⟨?_, ?_, ?_, ?_⟩
  · intro rows expected path fileHeaders fail_fast e he
    obtain ⟨hne, hff, -⟩ := (validate_columns_error_iff ..).mp he
    refine ⟨hff, ?_⟩
    by_contra hall
    push_neg at hall
    exact hne (List.filter_eq_nil_iff.mpr fun c hc => by simp [hall c hc])
  · exact fun rows expected path fileHeaders =>
      validate_columns_ok_of_not_fail_fast ..
  · exact fun cfg run_id migrated_at r k d h1 h2 =>
      rowGetD_transformRow_of_ne cfg run_id migrated_at r k d h1 h2
  · intro d cfg fileHeaders rows run_id migrated_at hcfg hff
    have hv : validate_columns rows cfg.expected_columns (input_path cfg)
        fileHeaders cfg.fail_fast = .ok (observed_headers rows fileHeaders) := by
      rw [hff]
      exact validate_columns_ok_of_not_fail_fast ..
    simp [main, hcfg, hv]

/-- C6 witness: a concrete fail-fast failure caused by a missing column,
and a concrete pass-through lookup. -/
theorem claim_C6_witness :
    (true = true ∧ ∃ c ∈ ["id", "age"], c ∉ observed_headers [] ["id", "name"]) ∧
    rowGetD (transformRow (cfgMin 0) "R" "M" [("id", "1")]) "id" "" =
      rowGetD [("id", "1")] "id" "" :=
  ⟨claim_C6_extra_columns_tolerated.1 [] ["id", "age"] "p" ["id", "name"] true
      ⟨["age"], "p", ["id", "name"]⟩ rfl,
    claim_C6_extra_columns_tolerated.2.2.1 (cfgMin 0) "R" "M" [("id", "1")] "id" ""
      (by decide) (by decide)⟩

/-- C10 counterexample: for a source row that already contains a `run_id`
column, the retained output row does not keep the original column value —
the enrichment overwrites it in place — so the output is not the original
row extended with enrichment fields. -/
theorem claim_C10_counterexample :
    ¬ (∀ p ∈ ([("age", "0"), ("run_id", "old")] : Row),
        p ∈ (transform_rows [[("age", "0"), ("run_id", "old")]]
          (cfgMin 0) "R" "M").headD []) ∧
    transform_rows [[("age", "0"), ("run_id", "old")]] (cfgMin 0) "R" "M" =
      [[("age", "0"), ("run_id", "R"), ("migrated_at_utc", "M")]] := by
  decide

/-- C10 (amended): the transform output is exactly the subsequence of
input rows passing the age filter, in original input order, each mapped
through the enrichment step, which never shortens a row and leaves the
value of every column other than `migrated_at_utc` and `run_id`
unchanged. -/
theorem claim_C10_order_preserved (cfg : Config) (run_id migrated_at : String)
    (rows : List Row) :
    transform_rows rows cfg run_id migrated_at =
      (rows.filter (fun r => decide (cfg.min_age ≤ parseAge r))).map
        (transformRow cfg run_id migrated_at) ∧
    (∀ r : Row, r.length ≤ (transformRow cfg run_id migrated_at r).length) ∧
    (∀ (r : Row) (k d : String), k ≠ "migrated_at_utc" → k ≠ "run_id" →
      rowGetD (transformRow cfg run_id migrated_at r) k d = rowGetD r k d) :=
  ⟨transform_rows_eq_filter_map rows cfg run_id migrated_at,
    fun r => length_transformRow_ge cfg run_id migrated_at r,
    fun r k d h1 h2 => rowGetD_transformRow_of_ne cfg run_id migrated_at r k d h1 h2⟩

/-- C10 witness: value pass-through at a concrete row and key. -/
theorem claim_C10_witness :
    rowGetD (transformRow (cfgMin 0) "R" "M" [("id", "7")]) "id" "" =
      rowGetD [("id", "7")] "id" "" :=
  (claim_C10_order_preserved (cfgMin 0) "R" "M" []).2.2 [("id", "7")] "id" ""
    (by decide) (by decide)

/-- C1: for every valid configuration and every input whose headers cover
`expected_columns`, the run exits with code 0 and the report's
`output_rows` is the number of input rows whose parsed-or-sentinel age is
at least `min_age`; in particular a row with age `"abc"` is dropped when
`min_age = 0` and kept when `min_age = -5`. -/
theorem claim_C1_success_output_rows :
    (∀ (d : ConfigDoc) (cfg : Config) (fileHeaders : List String)
        (rows : List Row) (run_id migrated_at : String),
      load_config d = some cfg →
      (∀ r ∈ rows, rowKeys r = fileHeaders) →
      (∀ c ∈ cfg.expected_columns, c ∈ fileHeaders) →
      main ⟨2, some d, some ⟨some fileHeaders, rows⟩⟩ run_id migrated_at =
        (0, [.logStart,
             .writeStaging (write_csv (transform_rows rows cfg run_id migrated_at)),
             .writeOutput (write_csv (transform_rows rows cfg run_id migrated_at)),
             .writeReport (mkReport cfg run_id migrated_at rows.length
               ((rows.filter (fun r => decide (cfg.min_age ≤ parseAge r))).length)
               fileHeaders),
             .logSuccess])) ∧
    main ⟨2, some (docMin 0),
        some ⟨some ["id", "age"], [[("id", "1"), ("age", "abc")]]⟩⟩ "R" "M" =
      (0, [.logStart, .writeStaging none, .writeOutput none,
           .writeReport (mkReport (cfgMin 0) "R" "M" 1 0 ["id", "age"]),
           .logSuccess]) ∧
    main ⟨2, some (docMin (-5)),
        some ⟨some ["id", "age"], [[("id", "1"), ("age", "abc")]]⟩⟩ "R" "M" =
      (0, [.logStart,
           .writeStaging (some (["id", "age", "migrated_at_utc", "run_id"],
             [["1", "abc", "M", "R"]])),
           .writeOutput (some (["id", "age", "migrated_at_utc", "run_id"],
             [["1", "abc", "M", "R"]])),
           .writeReport (mkReport (cfgMin (-5)) "R" "M" 1 1 ["id", "age"]),
           .logSuccess]) := by
  refine ⟨?_, by decide, by decide⟩
  intro d cfg fileHeaders rows run_id migrated_at hcfg hw hsup
  rw [main_success d cfg fileHeaders rows run_id migrated_at hcfg hw hsup,
    transform_rows_eq_filter_map, List.length_map]

/-- C1 witness: a concrete covered input. -/
theorem claim_C1_witness :
    main ⟨2, some (docMin 0), some ⟨some ["id", "age"], []⟩⟩ "R" "M" =
      (0, [.logStart,
           .writeStaging (write_csv (transform_rows [] (cfgMin 0) "R" "M")),
           .writeOutput (write_csv (transform_rows [] (cfgMin 0) "R" "M")),
           .writeReport (mkReport (cfgMin 0) "R" "M" ([] : List Row).length
             ((([] : List Row).filter
               (fun r => decide ((cfgMin 0).min_age ≤ parseAge r))).length)
             ["id", "age"]),
           .logSuccess]) :=
  claim_C1_success_output_rows.1 (docMin 0) (cfgMin 0) ["id", "age"] [] "R" "M"
    rfl (by simp) (by decide)

/-- C2: a fail-fast run over an input missing some expected column fails
validation with an error naming the missing columns, the input path and
the full observed header list, and exits with code 1 right after the
START log line — before any staging, output or report write and before
any SUCCESS log line. -/
theorem claim_C2_fail_fast_missing_columns (d : ConfigDoc) (cfg : Config)
    (fileHeaders : List String) (rows : List Row) (run_id migrated_at : String)
    (hcfg : load_config d = some cfg) (hff : cfg.fail_fast = true)
    (hw : ∀ r ∈ rows, rowKeys r = fileHeaders)
    (hmiss : ∃ c ∈ cfg.expected_columns, c ∉ fileHeaders) :
    (∃ e : SchemaError,
      validate_columns rows cfg.expected_columns (input_path cfg) fileHeaders
        cfg.fail_fast = .error e ∧
      e.missing = cfg.expected_columns.filter (fun c => !(fileHeaders.contains c)) ∧
      e.missing ≠ [] ∧ e.path = input_path cfg ∧ e.headers = fileHeaders) ∧
    main ⟨2, some d, some ⟨some fileHeaders, rows⟩⟩ run_id migrated_at =
      (1, [Event.logStart]) := by
  have hobs : observed_headers rows fileHeaders = fileHeaders := by
    cases rows with
    | nil => rfl
    | cons r rest => simpa [observed_headers] using hw r (by simp)
  obtain ⟨c, hc, hcn⟩ := hmiss
  have hfil : cfg.expected_columns.filter
      (fun x => !((observed_headers rows fileHeaders).contains x)) ≠ [] := by
    refine List.ne_nil_of_mem (a := c) (List.mem_filter.mpr ⟨hc, ?_⟩)
    rw [hobs]
    simp [hcn]
  refine ⟨⟨⟨cfg.expected_columns.filter
        (fun x => !((observed_headers rows fileHeaders).contains x)),
      input_path cfg, observed_headers rows fileHeaders⟩,
      (validate_columns_error_iff ..).mpr ⟨hfil, hff, rfl⟩,
      by rw [hobs], hfil, rfl, hobs⟩,
    main_schema_fail d cfg fileHeaders rows run_id migrated_at hcfg hff hw
      ⟨c, hc, hcn⟩⟩

/-- C2 witness: expected `["id", "age"]`, observed `["id", "name"]`. -/
theorem claim_C2_witness :
    main ⟨2, some (docMin 0),
        some ⟨some ["id", "name"], [[("id", "1"), ("name", "x")]]⟩⟩ "R" "M" =
      (1, [Event.logStart]) :=
  (claim_C2_fail_fast_missing_columns (docMin 0) (cfgMin 0) ["id", "name"]
    [[("id", "1"), ("name", "x")]] "R" "M" rfl rfl (by decide)
    ⟨"age", by decide, by decide⟩).2

/-- C7: an input with a header line covering the expected columns but
zero data rows validates successfully (headers re-derived from the header
line alone), and the run succeeds writing an empty artifact with no
header row and a report with `output_rows = 0`. -/
theorem claim_C7_zero_rows (d : ConfigDoc) (cfg : Config)
    (fileHeaders : List String) (run_id migrated_at : String)
    (hcfg : load_config d = some cfg)
    (hsup : ∀ c ∈ cfg.expected_columns, c ∈ fileHeaders) :
    validate_columns [] cfg.expected_columns (input_path cfg) fileHeaders
      cfg.fail_fast = .ok fileHeaders ∧
    write_csv (transform_rows [] cfg run_id migrated_at) = none ∧
    main ⟨2, some d, some ⟨some fileHeaders, []⟩⟩ run_id migrated_at =
      (0, [.logStart, .writeStaging none, .writeOutput none,
           .writeReport (mkReport cfg run_id migrated_at 0 0 fileHeaders),
           .logSuccess]) := by
  have hv := validate_columns_ok_of_superset [] cfg.expected_columns
    (input_path cfg) fileHeaders cfg.fail_fast
    (by simpa [observed_headers] using hsup)
  refine ⟨by simpa [observed_headers] using hv, rfl, ?_⟩
  have hm := main_success d cfg fileHeaders [] run_id migrated_at hcfg
    (by simp) hsup
  simpa [transform_rows, write_csv] using hm

/-- C7 witness: the concrete configuration with a header-only input. -/
theorem claim_C7_witness :
    main ⟨2, some (docMin 0), some ⟨some ["id", "age"], []⟩⟩ "R" "M" =
      (0, [.logStart, .writeStaging none, .writeOutput none,
           .writeReport (mkReport (cfgMin 0) "R" "M" 0 0 ["id", "age"]),
           .logSuccess]) :=
  (claim_C7_zero_rows (docMin 0) (cfgMin 0) ["id", "age"] "R" "M" rfl
    (by decide)).2.2

/-- C9: every successful run's trace carries a staging write and an
output write of the same serialized content (the same transformed row
sequence through the same writer). -/
theorem claim_C9_staging_output_identical (w : World)
    (run_id migrated_at : String) (evs : List Event)
    (h : main w run_id migrated_at = (0, evs)) :
    ∃ (c : Option (List String × List (List String))) (rep : Report),
      evs = [.logStart, .writeStaging c, .writeOutput c, .writeReport rep,
        .logSuccess] := by
  have h0 : (main w run_id migrated_at).1 = 0 := by rw [h]
  obtain ⟨c, rep, he⟩ := (main_cases w run_id migrated_at).2.2 h0
  rw [h] at he
  exact ⟨c, rep, he⟩

/-- C9 witness: a concrete successful run. -/
theorem claim_C9_witness :
    ∃ (c : Option (List String × List (List String))) (rep : Report),
      [Event.logStart, Event.writeStaging none, Event.writeOutput none,
        Event.writeReport (mkReport (cfgMin 0) "R" "M" 0 0 ["id", "age"]),
        Event.logSuccess] =
      [Event.logStart, Event.writeStaging c, Event.writeOutput c,
        Event.writeReport rep, Event.logSuccess] :=
  claim_C9_staging_output_identical
    ⟨2, some (docMin 0), some ⟨some ["id", "age"], []⟩⟩ "R" "M"
    [Event.logStart, Event.writeStaging none, Event.writeOutput none,
      Event.writeReport (mkReport (cfgMin 0) "R" "M" 0 0 ["id", "age"]),
      Event.logSuccess] (by decide)

/-- C8: exit code 0 exactly on success (a SUCCESS log line), 2 exactly on
a wrong argument count (with no side effects), and 1 for the other fatal
errors: missing config file, failing configuration resolution, missing
input file, and fail-fast schema violation. -/
theorem claim_C8_exit_codes :
    (∀ (w : World) (run_id migrated_at : String), w.argc ≠ 2 →
      main w run_id migrated_at = (2, [])) ∧
    (∀ (w : World) (run_id migrated_at : String), w.argc = 2 →
      (main w run_id migrated_at).1 ≠ 2) ∧
    (∀ (inf : Option InputFile) (run_id migrated_at : String),
      main ⟨2, none, inf⟩ run_id migrated_at = (1, [])) ∧
    (∀ (d : ConfigDoc) (inf : Option InputFile) (run_id migrated_at : String),
      load_config d = none → main ⟨2, some d, inf⟩ run_id migrated_at = (1, [])) ∧
    (∀ (d : ConfigDoc) (cfg : Config) (run_id migrated_at : String),
      load_config d = some cfg →
      main ⟨2, some d, none⟩ run_id migrated_at =
        (1, [Event.logStart, Event.logFailMissingInput])) ∧
    (∀ (d : ConfigDoc) (cfg : Config) (fileHeaders : List String)
        (rows : List Row) (run_id migrated_at : String),
      load_config d = some cfg → cfg.fail_fast = true →
      (∀ r ∈ rows, rowKeys r = fileHeaders) →
      (∃ c ∈ cfg.expected_columns, c ∉ fileHeaders) →
      main ⟨2, some d, some ⟨some fileHeaders, rows⟩⟩ run_id migrated_at =
        (1, [Event.logStart])) ∧
    (∀ (w : World) (run_id migrated_at : String),
      (main w run_id migrated_at).1 = 0 ↔
        Event.logSuccess ∈ (main w run_id migrated_at).2) := by
  refine ⟨?_, ?_, ?_, ?_, ?_, ?_, ?_⟩
  · intro w run_id migrated_at h
    simp [main, h]
  · intro w run_id migrated_at h hc
    exact (main_cases w run_id migrated_at).1.mp hc h
  · intro inf run_id migrated_at
    rfl
  · intro d inf run_id migrated_at h
    simp [main, h]
  · intro d cfg run_id migrated_at h
    simp only [main]
    rw [h]
    simp
  · exact fun d cfg fileHeaders rows run_id migrated_at hcfg hff hw hmiss =>
      main_schema_fail d cfg fileHeaders rows run_id migrated_at hcfg hff hw hmiss
  · exact fun w run_id migrated_at => (main_cases w run_id migrated_at).2.1

/-- C8 witness: a wrong argument count and a missing input file. -/
theorem claim_C8_witness :
    main ⟨3, some (docMin 0), none⟩ "R" "M" = (2, []) ∧
    main ⟨2, some (docMin 0), none⟩ "R" "M" =
      (1, [Event.logStart, Event.logFailMissingInput]) :=
  ⟨claim_C8_exit_codes.1 ⟨3, some (docMin 0), none⟩ "R" "M" (by decide),
    claim_C8_exit_codes.2.2.2.2.1 (docMin 0) (cfgMin 0) "R" "M" rfl⟩

/-- C3: configuration resolution succeeds only with every required field
present (`run.name`, the five paths, `inputs.source_file`,
`inputs.expected_columns`, the three `outputs` entries) and a numeric
`min_age`; and a document carrying exactly the required fields resolves
with the defaults `mode = "full"`, `fail_fast = true`, `min_age = 0`,
`add_migrated_at_utc = true`, `add_run_id = true`. -/
theorem claim_C3_config_required_and_defaults :
    (∀ (d : ConfigDoc) (cfg : Config), load_config d = some cfg →
      (∃ r, d.run = some r ∧ r.name ≠ none) ∧
      (∃ p, d.paths = some p ∧ p.raw_dir ≠ none ∧ p.staging_dir ≠ none ∧
        p.output_dir ≠ none ∧ p.reports_dir ≠ none ∧ p.logs_dir ≠ none) ∧
      (∃ i, d.inputs = some i ∧ i.source_file ≠ none ∧
        i.expected_columns ≠ none) ∧
      (∃ o, d.outputs = some o ∧ o.output_file ≠ none ∧ o.report_file ≠ none ∧
        o.log_file ≠ none) ∧
      (∀ t f, d.transform = some t → t.filter = some f →
        pyIntOfScalar (f.min_age.getD (YamlScalar.int 0)) ≠ none)) ∧
    (∀ (run_name raw staging output reports logs source ofile rfile lfile : String)
        (cols : List String),
      load_config ⟨some ⟨some run_name, none, none⟩,
        some ⟨some raw, some staging, some output, some reports, some logs⟩,
        some ⟨some source, some cols⟩,
        some ⟨some ⟨none⟩, none⟩,
        some ⟨some ofile, some rfile, some lfile⟩⟩ =
      some ⟨run_name, "full", true, raw, staging, output, reports, logs, source,
        cols, 0, true, true, ofile, rfile, lfile⟩) := by
  constructor
  · intro d cfg h
    obtain ⟨run, paths, inputs, transform, outputs⟩ := d
    rcases run with _ | r
    · simp [load_config] at h
    rcases paths with _ | p
    · simp [load_config] at h
    rcases inputs with _ | i
    · simp [load_config] at h
    rcases transform with _ | t
    · simp [load_config] at h
    rcases outputs with _ | o
    · simp [load_config] at h
    obtain ⟨nm, mode, ff⟩ := r
    rcases nm with _ | nm
    · simp [load_config] at h
    obtain ⟨raw, stg, outd, rep, logs⟩ := p
    rcases raw with _ | raw
    · simp [load_config] at h
    rcases stg with _ | stg
    · simp [load_config] at h
    rcases outd with _ | outd
    · simp [load_config] at h
    rcases rep with _ | rep
    · simp [load_config] at h
    rcases logs with _ | logs
    · simp [load_config] at h
    obtain ⟨src, cols⟩ := i
    rcases src with _ | src
    · simp [load_config] at h
    rcases cols with _ | cols
    · simp [load_config] at h
    obtain ⟨fil, addc⟩ := t
    rcases fil with _ | fil
    · simp [load_config] at h
    obtain ⟨ofile, rfile, lfile⟩ := o
    rcases ofile with _ | ofile
    · simp [load_config] at h
    rcases rfile with _ | rfile
    · simp [load_config] at h
    rcases lfile with _ | lfile
    · simp [load_config] at h
    refine ⟨⟨_, rfl, by simp⟩,
      ⟨_, rfl, by simp, by simp, by simp, by simp, by simp⟩,
      ⟨_, rfl, by simp, by simp⟩,
      ⟨_, rfl, by simp, by simp, by simp⟩, ?_⟩
    intro t f ht hf
    cases Option.some.inj ht
    cases Option.some.inj hf
    rcases hpi : pyIntOfScalar (fil.min_age.getD (YamlScalar.int 0)) with _ | m
    · simp [load_config, hpi] at h
    · simp [hpi]
  · intro run_name raw staging output reports logs source ofile rfile lfile cols
    rfl

/-- C3 witness: the concrete document `docMin 0` resolves, so it carries
its required fields. -/
theorem claim_C3_witness :
    ∃ r, (docMin 0).run = some r ∧ r.name ≠ none :=
  (claim_C3_config_required_and_defaults.1 (docMin 0) (cfgMin 0) rfl).1

end Migration
